import Mathlib

/-!
Verification development for the pytube fork (src/pytube/request.py and
src/pytube/contrib/playlist.py).  The Python source is shallowly embedded:
byte strings become `List Nat`, HTTP responses become a structure carrying
the Content-Range header and the body, the network becomes an explicit
server function, and the `while` loops of the source become fuel-indexed
step functions.
-/

namespace Pytube

/-- request.py line 19: `default_range_size = 9437184`. -/
def default_range_size : Nat := 9437184

/-- request.py line 20: `default_chunk_size = 4096`. -/
def default_chunk_size : Nat := 4096

/-- An HTTP response as `stream` (request.py 161-217) observes it: the
optional `Content-Range` header and the byte body. -/
structure Response where
  contentRange : Option String
  body : List Nat
  deriving DecidableEq

/-- Outcome of one `_execute_request` attempt inside the retry loop of
`stream` (request.py 184-203): a `URLError` whose reason is a
`socket.timeout` (swallowed and retried), any other exception (re-raised),
or a successful response. -/
inductive AttemptResult where
  | timeout
  | fail
  | ok (r : Response)
  deriving DecidableEq

/-- Result of the retry loop of `stream` (request.py 179-203). -/
inductive FetchResult where
  | maxRetries
  | failed
  | ok (r : Response)
  deriving DecidableEq

/-- The retry loop of `stream` (request.py 179-203), recursing on the number
of attempts still allowed.  `f tries` is the outcome of the attempt with
counter value `tries`.  When no attempts remain (`tries >= 1 + max_retries`
in the source) the loop raises `MaxRetriesExceeded`. -/
def attemptLoop (f : Nat → AttemptResult) : Nat → Nat → FetchResult
  | 0, _ => .maxRetries
  | remaining + 1, tries =>
    match f tries with
    | .ok r => .ok r
    | .fail => .failed
    | .timeout => attemptLoop f remaining (tries + 1)

/-- The retry loop entered with `tries = 0` and `1 + max_retries` available
attempts (request.py 176-181; `max_retries + 1 = 1 + max_retries`). -/
def attemptFrom (f : Nat → AttemptResult) (max_retries : Nat) : FetchResult :=
  attemptLoop f (max_retries + 1) 0

/-- Python `str.split("/")` on the character list of a string. -/
def splitOnSlash : List Char → List (List Char)
  | [] => [[]]
  | c :: rest =>
    if c.toNat = 47 then [] :: splitOnSlash rest
    else
      match splitOnSlash rest with
      | [] => [[c]]
      | l :: ls => (c :: l) :: ls

/-- Python `int(s)` restricted to plain decimal digit strings (the shape the
Content-Range total actually has); any other string raises `ValueError`,
modelled as `none`. -/
def charsToNat? (l : List Char) : Option Nat :=
  if l.isEmpty then none
  else if l.all (fun c => decide (48 ≤ c.toNat) && decide (c.toNat ≤ 57)) then
    some (l.foldl (fun acc c => acc * 10 + (c.toNat - 48)) 0)
  else none

/-- request.py 205-210: `int(content_range.split("/")[1])`, where a missing
header is a `KeyError`, a missing `/` field an `IndexError` and a malformed
integer a `ValueError`; all three leave `file_size` unchanged (`none`). -/
def parseTotalSize (cr : Option String) : Option Nat :=
  match cr with
  | none => none
  | some s =>
    match (splitOnSlash s.toList).get? 1 with
    | none => none
    | some piece => charsToNat? piece

/-- The mutable state of the main loop of `stream` (request.py 171-172):
`downloaded` and `file_size` (initially the `default_range_size`
placeholder). -/
structure StreamState where
  downloaded : Nat
  file_size : Nat
  deriving DecidableEq

/-- What one iteration of the outer `while downloaded < file_size` loop of
`stream` does: exit, raise, or continue with a new state after yielding the
chunks of this window. -/
inductive StepOutcome where
  | finished
  | errMaxRetries
  | errFailed
  | next (st : StreamState) (chunks : List (List Nat))
  deriving DecidableEq

/-- request.py 211-216: the body is read and yielded in pieces of
`default_chunk_size` bytes; fuel is the body length, which bounds the number
of reads. -/
def readChunksAux : Nat → List Nat → List (List Nat)
  | _, [] => []
  | 0, l => [l]
  | n + 1, l => l.take default_chunk_size :: readChunksAux n (l.drop default_chunk_size)

/-- The chunk sequence yielded for one response body (request.py 211-216). -/
def readChunks (l : List Nat) : List (List Nat) :=
  readChunksAux l.length l

/-- One iteration of the main loop of `stream` (request.py 173-216): compute
the range `[downloaded, min(downloaded + default_range_size, file_size) - 1]`,
run the retry loop, on success parse the Content-Range header while
`file_size` still equals the placeholder, then read the body in chunks and
advance `downloaded`.  `server start stop attempt` is the outcome of the
attempt numbered `attempt` for the range `bytes=start-stop`. -/
def streamStep (server : Nat → Nat → Nat → AttemptResult) (max_retries : Nat)
    (st : StreamState) : StepOutcome :=
  if st.downloaded < st.file_size then
    match attemptFrom
        (server st.downloaded (min (st.downloaded + default_range_size) st.file_size - 1))
        max_retries with
    | .maxRetries => .errMaxRetries
    | .failed => .errFailed
    | .ok r =>
      let fs :=
        if st.file_size = default_range_size then
          match parseTotalSize r.contentRange with
          | some n => n
          | none => st.file_size
        else st.file_size
      .next ⟨st.downloaded + r.body.length, fs⟩ (readChunks r.body)
  else .finished

/-- Result of running `stream` with a given amount of fuel: normal
termination with the yielded chunks and final state, `MaxRetriesExceeded`,
another propagated error, or fuel exhaustion (the loop is still running). -/
inductive StreamResult where
  | out (chunks : List (List Nat)) (final : StreamState)
  | maxRetries (chunks : List (List Nat))
  | failed (chunks : List (List Nat))
  | fuelOut (st : StreamState) (chunks : List (List Nat))
  deriving DecidableEq

/-- The main loop of `stream` (request.py 173-217), iterating `streamStep`
with fuel.  The accumulator collects the chunks yielded so far. -/
def stream (server : Nat → Nat → Nat → AttemptResult) (max_retries : Nat) :
    Nat → StreamState → List (List Nat) → StreamResult
  | 0, st, acc => .fuelOut st acc
  | fuel + 1, st, acc =>
    match streamStep server max_retries st with
    | .finished => .out acc st
    | .errMaxRetries => .maxRetries acc
    | .errFailed => .failed acc
    | .next st2 cs => stream server max_retries fuel st2 (acc ++ cs)

/-- The state of the main loop of `stream` after `n` completed iterations
starting from the initial state (request.py 171-172), or `none` once the
loop has exited or raised. -/
def stateAfter (server : Nat → Nat → Nat → AttemptResult) (max_retries : Nat) :
    Nat → Option StreamState
  | 0 => some ⟨0, default_range_size⟩
  | n + 1 =>
    match stateAfter server max_retries n with
    | some st =>
      match streamStep server max_retries st with
      | .next st2 _ => some st2
      | _ => none
    | none => none

/-- `StreamResult.isFuelOut r` is true when the run was cut off by fuel. -/
def StreamResult.isFuelOut : StreamResult → Bool
  | .fuelOut _ _ => true
  | _ => false

/-- The main loop of `stream` terminates (either normally or with an
exception) for some amount of fuel, starting from the initial state. -/
def streamTerminates (server : Nat → Nat → Nat → AttemptResult)
    (max_retries : Nat) : Prop :=
  ∃ fuel, (stream server max_retries fuel ⟨0, default_range_size⟩ []).isFuelOut = false

/-- A conforming range server for the resource `data`: every attempt
succeeds, the body is exactly the requested byte range clipped at end of
file, and the Content-Range header is the fixed string `cr`. -/
def confServer (data : List Nat) (cr : Option String) :
    Nat → Nat → Nat → AttemptResult :=
  fun start stop _attempt => .ok ⟨cr, (data.drop start).take (stop + 1 - start)⟩

/-- A server whose responses never carry a Content-Range header and always
have an empty body. -/
def emptyServer : Nat → Nat → Nat → AttemptResult :=
  fun _start _stop _attempt => .ok ⟨none, []⟩

/-! ### Lemmas about the retry loop -/

theorem attemptLoop_eq_maxRetries (f : Nat → AttemptResult) :
    ∀ rem t, attemptLoop f rem t = .maxRetries ↔
      ∀ i, t ≤ i → i < t + rem → f i = .timeout := by
  intro rem
  induction rem with
  | zero =>
    intro t
    constructor
    · intro _ i h1 h2
      omega
    · intro _
      rfl
  | succ n ih =>
    intro t
    constructor
    · intro h i h1 h2
      simp only [attemptLoop] at h
      cases hft : f t with
      | ok r => rw [hft] at h; cases h
      | fail => rw [hft] at h; cases h
      | timeout =>
        rw [hft] at h
        rcases Nat.eq_or_lt_of_le h1 with rfl | hlt
        · exact hft
        · exact (ih (t + 1)).1 h i hlt (by omega)
    · intro h
      simp only [attemptLoop]
      have hft : f t = .timeout := h t (Nat.le_refl t) (by omega)
      rw [hft]
      exact (ih (t + 1)).2 (fun i h1 h2 => h i (by omega) (by omega))

theorem attemptLoop_congr (f g : Nat → AttemptResult) :
    ∀ rem t, (∀ i, t ≤ i → i < t + rem → f i = g i) →
      attemptLoop f rem t = attemptLoop g rem t := by
  intro rem
  induction rem with
  | zero => intro t _; rfl
  | succ n ih =>
    intro t h
    simp only [attemptLoop]
    rw [h t (Nat.le_refl t) (by omega)]
    cases g t with
    | ok r => rfl
    | fail => rfl
    | timeout => exact ih (t + 1) (fun i h1 h2 => h i (by omega) (by omega))

theorem attemptLoop_ok (f : Nat → AttemptResult) :
    ∀ rem t k r, t ≤ k → k < t + rem →
      (∀ i, t ≤ i → i < k → f i = .timeout) → f k = .ok r →
      attemptLoop f rem t = .ok r := by
  intro rem
  induction rem with
  | zero => intro t k r h1 h2 _ _; omega
  | succ n ih =>
    intro t k r h1 h2 hto hk
    simp only [attemptLoop]
    rcases Nat.eq_or_lt_of_le h1 with rfl | hlt
    · rw [hk]
    · rw [hto t (Nat.le_refl t) hlt]
      exact ih (t + 1) k r hlt (by omega) (fun i hi1 hi2 => hto i (by omega) hi2) hk

theorem attemptLoop_fail (f : Nat → AttemptResult) :
    ∀ rem t k, t ≤ k → k < t + rem →
      (∀ i, t ≤ i → i < k → f i = .timeout) → f k = .fail →
      attemptLoop f rem t = .failed := by
  intro rem
  induction rem with
  | zero => intro t k h1 h2 _ _; omega
  | succ n ih =>
    intro t k h1 h2 hto hk
    simp only [attemptLoop]
    rcases Nat.eq_or_lt_of_le h1 with rfl | hlt
    · rw [hk]
    · rw [hto t (Nat.le_refl t) hlt]
      exact ih (t + 1) k hlt (by omega) (fun i hi1 hi2 => hto i (by omega) hi2) hk

/-- C3: within one range window the request is attempted at most
`1 + max_retries` times (the result depends on no later attempt);
`MaxRetriesExceeded` is raised iff all `1 + max_retries` attempts time out;
timeouts followed by a success within the bound return that success; a
non-timeout failure propagates immediately; and `stream` raises
`MaxRetriesExceeded` from a window exactly when every attempt for that
window times out. -/
theorem c3_retry_behavior :
    ∀ (f : Nat → AttemptResult) (max_retries : Nat),
      ((attemptFrom f max_retries = .maxRetries) ↔
        ∀ i, i < max_retries + 1 → f i = .timeout)
      ∧ (∀ g : Nat → AttemptResult,
          (∀ i, i < max_retries + 1 → f i = g i) →
          attemptFrom f max_retries = attemptFrom g max_retries)
      ∧ (∀ k r, k < max_retries + 1 → (∀ i, i < k → f i = .timeout) →
          f k = .ok r → attemptFrom f max_retries = .ok r)
      ∧ (∀ k, k < max_retries + 1 → (∀ i, i < k → f i = .timeout) →
          f k = .fail → attemptFrom f max_retries = .failed)
      ∧ (∀ (server : Nat → Nat → Nat → AttemptResult) (st : StreamState),
          streamStep server max_retries st = .errMaxRetries ↔
            (st.downloaded < st.file_size ∧
              ∀ i, i < max_retries + 1 →
                server st.downloaded
                  (min (st.downloaded + default_range_size) st.file_size - 1) i
                  = .timeout)) := by
  intro f max_retries
  refine ⟨?_, ?_, ?_, ?_, ?_⟩
  · constructor
    · intro h i hi
      exact (attemptLoop_eq_maxRetries f (max_retries + 1) 0).1 h i (Nat.zero_le i)
        (by omega)
    · intro h
      exact (attemptLoop_eq_maxRetries f (max_retries + 1) 0).2
        (fun i _ h2 => h i (by omega))
  · intro g h
    exact attemptLoop_congr f g (max_retries + 1) 0 (fun i _ h2 => h i (by omega))
  · intro k r hk hto hok
    exact attemptLoop_ok f (max_retries + 1) 0 k r (Nat.zero_le k) (by omega)
      (fun i _ h2 => hto i h2) hok
  · intro k hk hto hfl
    exact attemptLoop_fail f (max_retries + 1) 0 k (Nat.zero_le k) (by omega)
      (fun i _ h2 => hto i h2) hfl
  · intro server st
    by_cases h : st.downloaded < st.file_size
    · simp only [streamStep, if_pos h]
      cases ha : attemptFrom
          (server st.downloaded
            (min (st.downloaded + default_range_size) st.file_size - 1))
          max_retries with
      | maxRetries =>
        simp only [true_iff, iff_true]
        refine ⟨h, fun i hi => ?_⟩
        exact (attemptLoop_eq_maxRetries _ (max_retries + 1) 0).1 ha i
          (Nat.zero_le i) (by omega)
      | failed =>
        constructor
        · intro hcon
          cases hcon
        · rintro ⟨_, hall⟩
          have : attemptFrom
              (server st.downloaded
                (min (st.downloaded + default_range_size) st.file_size - 1))
              max_retries = .maxRetries :=
            (attemptLoop_eq_maxRetries _ (max_retries + 1) 0).2
              (fun i _ h2 => hall i (by omega))
          rw [ha] at this
          cases this
      | ok r =>
        constructor
        · intro hcon
          cases hcon
        · rintro ⟨_, hall⟩
          have : attemptFrom
              (server st.downloaded
                (min (st.downloaded + default_range_size) st.file_size - 1))
              max_retries = .maxRetries :=
            (attemptLoop_eq_maxRetries _ (max_retries + 1) 0).2
              (fun i _ h2 => hall i (by omega))
          rw [ha] at this
          cases this
    · simp only [streamStep, if_neg h]
      constructor
      · intro hcon
        cases hcon
      · rintro ⟨hlt, _⟩
        exact absurd hlt h

/-- Concrete instance of C3: with `max_retries = 2` and attempt outcomes
timeout, success, the retry loop returns the successful response. -/
theorem c3_retry_behavior_witness :
    attemptFrom (fun i => if i = 0 then AttemptResult.timeout
      else AttemptResult.ok ⟨none, []⟩) 2 = .ok ⟨none, []⟩ := by
  refine (c3_retry_behavior
      (fun i => if i = 0 then AttemptResult.timeout else AttemptResult.ok ⟨none, []⟩)
      2).2.2.1 1 ⟨none, []⟩ (by omega) ?_ rfl
  intro i hi
  have h0 : i = 0 := by omega
  subst h0
  rfl

/-! ### Lemmas about chunked reading and the conforming server -/

theorem readChunksAux_flatten :
    ∀ n l, l.length ≤ n → (readChunksAux n l).flatten = l := by
  intro n
  induction n with
  | zero =>
    intro l h
    have hl : l = [] := List.eq_nil_of_length_eq_zero (by omega)
    subst hl
    rfl
  | succ m ih =>
    intro l h
    cases l with
    | nil => rfl
    | cons a as =>
      have hc : default_chunk_size = 4096 := rfl
      simp only [readChunksAux, List.flatten_cons]
      rw [ih ((a :: as).drop default_chunk_size)
        (by rw [List.length_drop]; simp only [List.length_cons] at h ⊢; omega)]
      exact List.take_append_drop _ _

theorem readChunks_flatten (l : List Nat) : (readChunks l).flatten = l :=
  readChunksAux_flatten l.length l (Nat.le_refl _)

theorem take_min {α : Type} (l : List α) (n : Nat) :
    l.take n = l.take (min n l.length) := by
  induction l generalizing n with
  | nil => simp
  | cons a as ih =>
    cases n with
    | zero => simp
    | succ m =>
      simp only [List.take, List.length_cons]
      rw [Nat.succ_min_succ]
      simp only [List.take]
      rw [ih m]

theorem streamStep_conf_init (data : List Nat) (cr : Option String) (mr : Nat)
    (hcr : parseTotalSize cr = some data.length) :
    streamStep (confServer data cr) mr ⟨0, default_range_size⟩ =
      .next ⟨min default_range_size data.length, data.length⟩
        (readChunks (data.take default_range_size)) := by
  have hW : default_range_size = 9437184 := rfl
  have harith : min (0 + default_range_size) default_range_size - 1 + 1 - 0
      = default_range_size := by omega
  simp only [streamStep, confServer, attemptFrom, attemptLoop, harith,
    List.drop_zero, hcr]
  rw [if_pos (show (0:Nat) < default_range_size by omega)]
  simp [List.length_take]

theorem streamStep_conf (data : List Nat) (cr : Option String) (mr : Nat)
    (hcr : parseTotalSize cr = some data.length) (d : Nat) (hd : d < data.length) :
    streamStep (confServer data cr) mr ⟨d, data.length⟩ =
      .next ⟨min (d + default_range_size) data.length, data.length⟩
        (readChunks ((data.drop d).take
          (min (d + default_range_size) data.length - d))) := by
  have hW : default_range_size = 9437184 := rfl
  have harith : min (d + default_range_size) data.length - 1 + 1 - d
      = min (d + default_range_size) data.length - d := by omega
  simp only [streamStep, confServer, attemptFrom, attemptLoop, harith, hcr]
  rw [if_pos hd]
  simp only [ite_self]
  rw [List.length_take, List.length_drop]
  have hx : d + min (min (d + default_range_size) data.length - d)
      (data.length - d) = min (d + default_range_size) data.length := by
    omega
  rw [hx]

theorem stream_conf_inv (data : List Nat) (cr : Option String) (mr : Nat)
    (hcr : parseTotalSize cr = some data.length) :
    ∀ fuel d acc, d ≤ data.length → data.length - d < fuel →
      ∃ tail, stream (confServer data cr) mr fuel ⟨d, data.length⟩ acc
          = .out (acc ++ tail) ⟨data.length, data.length⟩
        ∧ tail.flatten = data.drop d := by
  intro fuel
  induction fuel with
  | zero =>
    intro d acc h1 h2
    omega
  | succ n ih =>
    intro d acc hd hfuel
    have hW : default_range_size = 9437184 := rfl
    by_cases hlt : d < data.length
    · have hstep := streamStep_conf data cr mr hcr d hlt
      obtain ⟨tail2, heq, hjoin⟩ := ih (min (d + default_range_size) data.length)
        (acc ++ readChunks ((data.drop d).take
          (min (d + default_range_size) data.length - d)))
        (by omega) (by omega)
      refine ⟨readChunks ((data.drop d).take
          (min (d + default_range_size) data.length - d)) ++ tail2, ?_, ?_⟩
      · simp only [stream, hstep]
        rw [heq, List.append_assoc]
      · rw [List.flatten_append, readChunks_flatten, hjoin]
        have hdd : data.drop (min (d + default_range_size) data.length)
            = (data.drop d).drop (min (d + default_range_size) data.length - d) := by
          rw [List.drop_drop]
          congr 1
          omega
        rw [hdd]
        exact List.take_append_drop _ _
    · have hde : d = data.length := by omega
      subst hde
      refine ⟨[], ?_, ?_⟩
      · simp only [stream, streamStep]
        rw [if_neg (by omega)]
        rw [List.append_nil]
      · rw [List.drop_length]
        rfl

theorem stream_conf_run (data : List Nat) (cr : Option String) (mr fuel : Nat)
    (hcr : parseTotalSize cr = some data.length)
    (hfuel : data.length + 2 ≤ fuel) :
    ∃ chunks, stream (confServer data cr) mr fuel ⟨0, default_range_size⟩ []
        = .out chunks ⟨data.length, data.length⟩ ∧ chunks.flatten = data := by
  have hW : default_range_size = 9437184 := rfl
  obtain ⟨f, rfl⟩ : ∃ f, fuel = f + 1 := ⟨fuel - 1, by omega⟩
  obtain ⟨tail, heq, hjoin⟩ := stream_conf_inv data cr mr hcr f
    (min default_range_size data.length)
    ([] ++ readChunks (data.take default_range_size))
    (by omega) (by omega)
  refine ⟨[] ++ readChunks (data.take default_range_size) ++ tail, ?_, ?_⟩
  · simp only [stream, streamStep_conf_init data cr mr hcr]
    exact heq
  · simp only [List.nil_append, List.flatten_append, readChunks_flatten, hjoin]
    rw [take_min]
    exact List.take_append_drop _ _

/-- C1: against a server that answers every range request
`[downloaded, min(downloaded + range_window, total_size) - 1]` with exactly
the requested bytes (clipped at end of file) and a Content-Range header
whose total parses to the resource size, `stream` terminates normally and
the concatenation of all yielded chunks is exactly the byte range
`[0, total_size)` — no gaps and no overlaps. -/
theorem c1_stream_reconstructs (data : List Nat) (cr : Option String)
    (mr fuel : Nat) (hcr : parseTotalSize cr = some data.length)
    (hfuel : data.length + 2 ≤ fuel) :
    ∃ chunks, stream (confServer data cr) mr fuel ⟨0, default_range_size⟩ []
        = .out chunks ⟨data.length, data.length⟩ ∧ chunks.flatten = data :=
  stream_conf_run data cr mr fuel hcr hfuel

/-- Concrete instance of C1 on the two-byte resource `[5, 6]`. -/
theorem c1_stream_reconstructs_witness :
    ∃ chunks, stream (confServer [5, 6] (some "0/2")) 0 4 ⟨0, default_range_size⟩ []
        = .out chunks ⟨2, 2⟩ ∧ chunks.flatten = [5, 6] :=
  c1_stream_reconstructs [5, 6] (some "0/2") 0 4 (by decide) (by decide)

/-! ### C5: termination -/

theorem emptyServer_fixpoint :
    ∀ fuel, stream emptyServer 0 fuel ⟨0, default_range_size⟩ []
      = .fuelOut ⟨0, default_range_size⟩ [] := by
  intro fuel
  induction fuel with
  | zero => rfl
  | succ n ih =>
    have hstep : streamStep emptyServer 0 ⟨0, default_range_size⟩
        = .next ⟨0, default_range_size⟩ [] := by decide
    simp only [stream, hstep]
    rw [List.append_nil]
    exact ih

/-- C5 counterexample: the claim asserts that the main loop of `stream`
still terminates when the Content-Range header is always absent; against a
server whose responses carry no Content-Range header and empty bodies, the
loop never terminates (for every amount of fuel it is still running), so
`streamTerminates` is `False` there. -/
theorem c5_nontermination_cex : streamTerminates emptyServer 0 = False := by
  apply eq_false
  rintro ⟨fuel, hfv⟩
  rw [emptyServer_fixpoint fuel] at hfv
  simp only [StreamResult.isFuelOut] at hfv
  cases hfv

/-- C5 amended: the loop stops as soon as `downloaded >= file_size`, and it
terminates whenever the Content-Range header of the responses parses to the
true total size; if the header is absent or unparseable on every response
the loop need not terminate (see the counterexample). -/
theorem c5_termination_amended :
    (∀ (server : Nat → Nat → Nat → AttemptResult) (mr : Nat) (st : StreamState),
      st.file_size ≤ st.downloaded → streamStep server mr st = .finished)
    ∧ (∀ (data : List Nat) (cr : Option String) (mr : Nat),
        parseTotalSize cr = some data.length →
        streamTerminates (confServer data cr) mr) := by
  constructor
  · intro server mr st h
    simp only [streamStep]
    rw [if_neg (by omega)]
  · intro data cr mr hcr
    obtain ⟨chunks, heq, _⟩ :=
      stream_conf_run data cr mr (data.length + 2) hcr (Nat.le_refl _)
    exact ⟨data.length + 2, by rw [heq]; rfl⟩

/-- Concrete instance of the amended C5: the stream over the two-byte
resource `[1, 2]` with a parseable Content-Range terminates. -/
theorem c5_termination_amended_witness :
    streamTerminates (confServer [1, 2] (some "0/2")) 0 :=
  c5_termination_amended.2 [1, 2] (some "0/2") 0 (by decide)

/-! ### C8: discovery and immutability of the total size -/

/-- A server whose first-window response (start = 0) has no Content-Range
header and a one-byte body, while every later response carries the header
`0/2` and a one-byte body. -/
def cexServer : Nat → Nat → Nat → AttemptResult :=
  fun start _stop _attempt =>
    if start = 0 then .ok ⟨none, [7]⟩ else .ok ⟨some "0/2", [8]⟩

/-- C8 counterexample: the first successful response carries no
Content-Range header, so under the claim `total_size` could never be set;
but the code parses the header again on the second iteration and modifies
`file_size` there (from the placeholder to 2).  `total_size` is therefore
not parsed from the first successful response only, and it is modified on a
subsequent iteration. -/
theorem c8_total_size_cex :
    cexServer 0 (min (0 + default_range_size) default_range_size - 1) 0
        = .ok ⟨none, [7]⟩
    ∧ parseTotalSize none = none
    ∧ stateAfter cexServer 0 1 = some ⟨1, default_range_size⟩
    ∧ stateAfter cexServer 0 2 = some ⟨2, 2⟩
    ∧ (2 != default_range_size) = true := by
  refine ⟨rfl, rfl, by decide, by decide, by decide⟩

/-- C8 amended: `file_size` is (re)parsed from responses only while it still
equals the placeholder; under a server where the Content-Range parses
to the true size, every state after the first iteration has
`file_size = total_size`, fixed once and never modified, and the invariant
`downloaded <= file_size` holds from then on. -/
theorem c8_total_size_amended (data : List Nat) (cr : Option String) (mr : Nat)
    (hcr : parseTotalSize cr = some data.length) :
    ∀ n st, stateAfter (confServer data cr) mr (n + 1) = some st →
      st.file_size = data.length ∧ st.downloaded ≤ st.file_size := by
  intro n
  induction n with
  | zero =>
    intro st h
    simp only [stateAfter, streamStep_conf_init data cr mr hcr] at h
    simp only [Option.some.injEq] at h
    subst h
    exact ⟨rfl, Nat.min_le_right _ _⟩
  | succ k ih =>
    intro st h
    have h2 : (match stateAfter (confServer data cr) mr (k + 1) with
        | some st1 =>
          match streamStep (confServer data cr) mr st1 with
          | .next st2 _ => some st2
          | _ => none
        | none => none) = some st := h
    cases hsa : stateAfter (confServer data cr) mr (k + 1) with
    | none =>
      rw [hsa] at h2
      cases h2
    | some st1 =>
      rw [hsa] at h2
      dsimp only at h2
      obtain ⟨hfs, hdl⟩ := ih st1 hsa
      obtain ⟨d1, fs1⟩ := st1
      simp only at hfs hdl
      subst hfs
      by_cases hlt : d1 < data.length
      · rw [streamStep_conf data cr mr hcr d1 hlt] at h2
        simp only [Option.some.injEq] at h2
        subst h2
        exact ⟨rfl, Nat.min_le_right _ _⟩
      · have hfin : streamStep (confServer data cr) mr ⟨d1, data.length⟩
            = .finished := by
          simp only [streamStep]
          rw [if_neg hlt]
        rw [hfin] at h2
        cases h2

/-- Concrete instance of the amended C8: after the first iteration over the
resource `[1, 2, 3]`, the state is `⟨3, 3⟩` with `file_size` equal to the
resource length and `downloaded <= file_size`. -/
theorem c8_total_size_amended_witness :
    (⟨3, 3⟩ : StreamState).file_size = [1, 2, 3].length
    ∧ (⟨3, 3⟩ : StreamState).downloaded ≤ (⟨3, 3⟩ : StreamState).file_size :=
  c8_total_size_amended [1, 2, 3] (some "0/3") 0 (by decide) 0 ⟨3, 3⟩ (by decide)

/-! ### seq_stream and seq_filesize (request.py 115-158, 230-279) -/

/-- ASCII bytes of the literal `Segment-Count: ` from the pattern
`Segment-Count: (\d+)` of request.py line 143. -/
def segMarker : List Nat :=
  [83, 101, 103, 109, 101, 110, 116, 45, 67, 111, 117, 110, 116, 58, 32]

/-- Python `bytes.split` on the two-byte separator CR LF (13, 10). -/
def splitCRLF : List Nat → List (List Nat)
  | [] => [[]]
  | [b] => [[b]]
  | b1 :: b2 :: rest =>
    if b1 = 13 ∧ b2 = 10 then [] :: splitCRLF rest
    else
      match splitCRLF (b2 :: rest) with
      | [] => [[b1]]
      | l :: ls => (b1 :: l) :: ls

/-- Whether the byte list starts with the given pattern. -/
def leadsWith : List Nat → List Nat → Bool
  | [], _ => true
  | _ :: _, [] => false
  | p :: ps, b :: bs => if p = b then leadsWith ps bs else false

/-- Decimal value of a run of ASCII digit bytes, as Python `int` computes it
for the captured group. -/
def digitsVal : Nat → List Nat → Nat
  | acc, [] => acc
  | acc, d :: rest => digitsVal (acc * 10 + (d - 48)) rest

/-- Python `re.search` for `Segment-Count: (\d+)` on one line, followed by
`int(match.group(1))`: the first position where the literal marker is
followed by at least one decimal digit yields the value of the maximal
digit run there. -/
def searchSegCount : List Nat → Option Nat
  | [] => none
  | b :: rest =>
    if leadsWith segMarker (b :: rest) then
      if (((b :: rest).drop segMarker.length).takeWhile
          (fun c => decide (48 ≤ c) && decide (c ≤ 57))).isEmpty then
        searchSegCount rest
      else
        some (digitsVal 0 (((b :: rest).drop segMarker.length).takeWhile
          (fun c => decide (48 ≤ c) && decide (c ≤ 57))))
    else searchSegCount rest

/-- request.py 144-147: every line is searched and each match overwrites
`segment_count`, so the last matching line wins; with no match the variable
is never assigned (`none` models the unbound variable). -/
def lastSegCount (lines : List (List Nat)) : Option Nat :=
  lines.foldl (fun acc line =>
    match searchSegCount line with
    | some n => some n
    | none => acc) none

/-- How a run of `seq_stream` (request.py 115-158) ends, together with the
chunks that were yielded to the consumer before that point. -/
inductive SeqStreamResult where
  | nameError (yielded : List (List Nat))
  | typeError (yielded : List (List Nat))
  | done (yielded : List (List Nat))
  | errMaxRetries (yielded : List (List Nat))
  | errFailed (yielded : List (List Nat))
  | fuelOut
  deriving DecidableEq

/-- seq_stream (request.py 115-158): stream the `sq=0` header segment,
yielding its chunks and accumulating them in `segment_data` (lines
136-139); split the accumulated bytes on CR LF and parse the segment count
(lines 142-147).  If no line matched, line 151 reads the unbound variable
`segment_count`, a `NameError`.  With `segment_count = 0` the `while` loop
never runs and the generator ends after the header.  With a positive count,
line 156 evaluates `await stream(url, ...)`: `stream` is an async
generator, so awaiting it raises `TypeError` at the first segment — no
segment is fetched and no segment chunk is ever yielded.  `headerServer`
answers the range requests of the `sq=0` stream. -/
def seq_stream (headerServer : Nat → Nat → Nat → AttemptResult)
    (max_retries fuel : Nat) : SeqStreamResult :=
  match stream headerServer max_retries fuel ⟨0, default_range_size⟩ [] with
  | .fuelOut _ _ => .fuelOut
  | .maxRetries acc => .errMaxRetries acc
  | .failed acc => .errFailed acc
  | .out acc _ =>
    match lastSegCount (splitCRLF acc.flatten) with
    | none => .nameError acc
    | some 0 => .done acc
    | some (_ + 1) => .typeError acc

/-- The 18 header bytes `Segment-Count: 1` CR LF. -/
def segHdr : List Nat := segMarker ++ [49, 13, 10]

/-- C2: the claim says `seq_stream` yields the header chunks and then the
chunks of segments `1..Segment-Count` in order.  Evaluating the code on a
header segment announcing `Segment-Count: 1`: exactly the header chunks are
yielded and the run ends in `TypeError` (request.py 156 awaits the async
generator instead of iterating it), so no chunk of segment 1 is ever
yielded or fetched. -/
theorem c2_seq_stream_drops_segments :
    seq_stream (confServer segHdr (some "0/18")) 0 3 = .typeError [segHdr] := by
  decide

/-- How a run of `seq_filesize` (request.py 230-279) ends. -/
inductive SeqFilesizeResult where
  | typeError (totalSoFar : Nat)
  deriving DecidableEq

/-- seq_filesize (request.py 230-279): fetch the `sq=0` header;
`response_value = await response.text()` is a `str` (line 251); line 253
adds its length to `total_filesize`; line 257 then calls
`response_value.split` with a `bytes` separator on that `str`, which raises
`TypeError` unconditionally — before any Segment-Count search, before the
`RegexMatchError` check and before any segment HEAD request. -/
def seq_filesize (headerText : String) : SeqFilesizeResult :=
  .typeError headerText.length

/-- C6: the claim says a header without a Segment-Count line makes
`seq_filesize` fail with `RegexMatchError`, and that with a matching line
the sizes of exactly the parsed number of segments are summed.  Evaluating
the code: even on a header that does contain `Segment-Count: 2`, the run
fails with `TypeError` right after accumulating the header length (18),
so neither behavior of the claim is reachable. -/
theorem c6_seq_filesize_type_error :
    seq_filesize "Segment-Count: 2\r\n" = .typeError 18 := rfl

/-! ### Playlist pagination (contrib/playlist.py) -/

/-- A JSON value as `json.loads` produces it (playlist.py line 192). -/
inductive JValue where
  | null
  | bool (b : Bool)
  | num (n : Int)
  | str (s : String)
  | arr (elems : List JValue)
  | obj (fields : List (String × JValue))

/-- The Python exceptions that subscription can raise; `_extract_videos`
catches all three at lines 205, 211 and 219 but only the first two at line
228. -/
inductive PyErr where
  | keyError
  | indexError
  | typeError
  deriving DecidableEq

/-- Python subscription `v[k]` with a string key: a `dict` looks up the key
(`KeyError` when absent); subscribing a `list`, `str`, `int`, `bool` or
`None` with a string key raises `TypeError`. -/
def getKey (v : JValue) (k : String) : Except PyErr JValue :=
  match v with
  | .obj fields =>
    match fields.find? (fun p => p.fst == k) with
    | some p => .ok p.snd
    | none => .error .keyError
  | _ => .error .typeError

/-- Python subscription `v[i]` with a non-negative integer: a `list`
indexes (`IndexError` when out of range); a `str` yields a one-character
string; a `dict` raises `KeyError` (JSON object keys are strings, so an
integer is never among them); other values raise `TypeError`. -/
def getIdx (v : JValue) (i : Nat) : Except PyErr JValue :=
  match v with
  | .arr l =>
    match l.get? i with
    | some x => .ok x
    | none => .error .indexError
  | .str s =>
    match s.toList.get? i with
    | some c => .ok (.str (String.mk [c]))
    | none => .error .indexError
  | .obj _ => .error .keyError
  | _ => .error .typeError

/-- Python `v[-1]` (playlist.py line 224): the last element of a `list` or
`str` (`IndexError` when empty); `KeyError` on a `dict`; `TypeError`
otherwise. -/
def getLastItem (v : JValue) : Except PyErr JValue :=
  match v with
  | .arr l =>
    match l.getLast? with
    | some x => .ok x
    | none => .error .indexError
  | .str s =>
    match s.toList.getLast? with
    | some c => .ok (.str (String.mk [c]))
    | none => .error .indexError
  | .obj _ => .error .keyError
  | _ => .error .typeError

/-- Python slice `v[:-1]` (playlist.py line 227).  The slice runs only
after token extraction succeeded on `videos[-1]`, which requires `videos`
to be a `list`; the remaining cases are unreachable there. -/
def sliceDropLast (v : JValue) : JValue :=
  match v with
  | .arr l => .arr l.dropLast
  | .str s => .str (String.mk s.toList.dropLast)
  | x => x

/-- One navigation step: subscription by string key or by integer index. -/
inductive PathStep where
  | key (k : String)
  | idx (i : Nat)

/-- Chained subscriptions, the first error propagating. -/
def getSteps : JValue → List PathStep → Except PyErr JValue
  | v, [] => .ok v
  | v, .key k :: rest =>
    match getKey v k with
    | .ok w => getSteps w rest
    | .error e => .error e
  | v, .idx i :: rest =>
    match getIdx v i with
    | .ok w => getSteps w rest
    | .error e => .error e

/-- playlist.py 196-210: the initial-page JSON shape.  The outer chain
computes `section_contents`; the inner `try` uses the no-submenu indexing
and falls back to the with-submenu indexing on
`KeyError`/`IndexError`/`TypeError`; finally line 210 takes
`important_content["contents"]`, whose error propagates to the caller of
this shape. -/
def shapeInitial (data : JValue) : Except PyErr JValue :=
  match getSteps data [.key "contents", .key "twoColumnBrowseResultsRenderer",
      .key "tabs", .idx 0, .key "tabRenderer", .key "content",
      .key "sectionListRenderer", .key "contents"] with
  | .error e => .error e
  | .ok sectionContents =>
    match getSteps sectionContents [.idx 0, .key "itemSectionRenderer",
        .key "contents", .idx 0, .key "playlistVideoListRenderer"] with
    | .ok important => getKey important "contents"
    | .error _ =>
      match getSteps sectionContents [.idx 1, .key "itemSectionRenderer",
          .key "contents", .idx 0, .key "playlistVideoListRenderer"] with
      | .ok important => getKey important "contents"
      | .error e => .error e

/-- playlist.py 212-218: the continuation-response JSON shape. -/
def shapeContinuation (data : JValue) : Except PyErr JValue :=
  getSteps data [.key "onResponseReceivedActions", .idx 0,
    .key "appendContinuationItemsAction", .key "continuationItems"]

/-- playlist.py 193-221: try the initial-page shape; on
`KeyError`/`IndexError`/`TypeError` (the only errors subscription raises,
all caught at lines 205, 211 and 219) try the continuation shape; if that
fails too, the page is empty with no continuation (line 221). -/
def resolveVideos (data : JValue) : Option JValue :=
  match shapeInitial data with
  | .ok v => some v
  | .error _ =>
    match shapeContinuation data with
    | .ok v => some v
    | .error _ => none

/-- playlist.py 224-226: the token of a trailing continuation marker. -/
def markerToken (v : JValue) : Except PyErr JValue :=
  getSteps v [.key "continuationItemRenderer", .key "continuationEndpoint",
    .key "continuationCommand", .key "token"]

/-- The textual form the f-string of playlist.py 239-241 gives a `videoId`
value.  A real payload holds strings; the Python textual form of the
container cases is abstracted, no claim depends on it. -/
def jformat : JValue → String
  | .str s => s
  | .num n => toString n
  | .bool true => "True"
  | .bool false => "False"
  | .null => "None"
  | .obj _ => "dict"
  | .arr _ => "list"

/-- Python iteration over the resolved `videos` value by `map`
(playlist.py line 237): a `list` iterates its elements, a `dict` its keys,
a `str` its characters; other values raise `TypeError`. -/
def pyIter (v : JValue) : Except PyErr (List JValue) :=
  match v with
  | .arr l => .ok l
  | .obj fields => .ok (fields.map (fun p => JValue.str p.fst))
  | .str s => .ok (s.toList.map (fun c => JValue.str (String.mk [c])))
  | _ => .error .typeError

/-- playlist.py 236-244: map each item to
`/watch?v=` followed by its `playlistVideoRenderer.videoId`; an error of
the lambda propagates out of `list(map(...))` uncaught. -/
def videoIdsOf : List JValue → Except PyErr (List String)
  | [] => .ok []
  | x :: xs =>
    match getSteps x [.key "playlistVideoRenderer", .key "videoId"] with
    | .error e => .error e
    | .ok v =>
      match videoIdsOf xs with
      | .error e => .error e
      | .ok rest => .ok (("/watch?v=" ++ jformat v) :: rest)

/-- Modelled from the spec: `uniqueify` lives in pytube/helpers.py, which
is not under src/; the spec says item identifiers are de-duplicated while
preserving first-seen order.  `seen` holds the already kept elements. -/
def dedupKeep : List String → List String → List String
  | _, [] => []
  | seen, x :: xs =>
    if x ∈ seen then dedupKeep seen xs
    else x :: dedupKeep (x :: seen) xs

/-- Modelled from the spec: `uniqueify` de-duplicates preserving first-seen
order (used at playlist.py line 234). -/
def uniqueify (l : List String) : List String := dedupKeep [] l

/-- playlist.py 223-247 applied to the resolved `videos` value: extract the
token of a trailing continuation marker and drop the marker — the
`except (KeyError, IndexError)` at line 228 leaves the continuation `None`,
while a `TypeError` propagates — then map the remaining items to watch
paths and de-duplicate. -/
def markerStage (videos : JValue) : Except PyErr (List String × Option JValue) :=
  match (match getLastItem videos with
         | .ok lastv => markerToken lastv
         | .error e => .error e : Except PyErr JValue) with
  | .ok tok =>
    match pyIter (sliceDropLast videos) with
    | .error e => .error e
    | .ok items =>
      match videoIdsOf items with
      | .error e => .error e
      | .ok ids => .ok (uniqueify ids, some tok)
  | .error .typeError => .error .typeError
  | .error _ =>
    match pyIter videos with
    | .error e => .error e
    | .ok items =>
      match videoIdsOf items with
      | .error e => .error e
      | .ok ids => .ok (uniqueify ids, none)

/-- playlist.py 182-247 `_extract_videos`, on the parsed JSON value of its
`raw_json` argument. -/
def extract_videos (data : JValue) : Except PyErr (List String × Option JValue) :=
  match resolveVideos data with
  | none => .ok ([], none)
  | some videos => markerStage videos

/-- playlist.py 106-112 and 132-138: the `until_watch_id` check.  A falsy
id (`None`, or the empty string) disables the check; otherwise
`videos_urls.index` finds the first occurrence of the watch path and the
page is trimmed to the prefix strictly before it; `ValueError` (`none`
here) means the id is absent and the full page is yielded. -/
def stopCheck (untilId : Option String) (videos : List String) :
    Option (List String) :=
  match untilId with
  | none => none
  | some wid =>
    if wid = "" then none
    else
      match videos.findIdx? (fun v => v == "/watch?v=" ++ wid) with
      | some i => some (videos.take i)
      | none => none

/-- How a run of `_paginate` ends: the pages yielded so far, plus either
normal termination, a propagated extraction error, or fuel exhaustion. -/
inductive PaginateResult where
  | pages (ps : List (List String))
  | error (ps : List (List String)) (e : PyErr)
  | fuelOut (ps : List (List String))

/-- playlist.py 119-146: the continuation loop of `_paginate`.  While a
continuation token is present, request the next page (`loadMore` models the
POST of lines 120-131 returning the parsed body of the next page), extract
it, apply the `until_watch_id` trim-and-return, otherwise yield the page
and continue with its continuation.  Fuel bounds the loop. -/
def paginateFrom (loadMore : JValue → JValue) (untilId : Option String) :
    Nat → Option JValue → List (List String) → PaginateResult
  | _, none, acc => .pages acc
  | 0, some _, acc => .fuelOut acc
  | fuel + 1, some tok, acc =>
    match extract_videos (loadMore tok) with
    | .error e => .error acc e
    | .ok (videos, cont) =>
      match stopCheck untilId videos with
      | some pfx => .pages (acc ++ [pfx])
      | none => paginateFrom loadMore untilId fuel cont (acc ++ [videos])

/-- playlist.py 91-146 `_paginate`: extract the first page from the initial
data (line 103), apply the `until_watch_id` check (106-113), then run the
continuation loop. -/
def paginate (firstPage : JValue) (loadMore : JValue → JValue)
    (untilId : Option String) (fuel : Nat) : PaginateResult :=
  match extract_videos firstPage with
  | .error e => .error [] e
  | .ok (videos, cont) =>
    match stopCheck untilId videos with
    | some pfx => .pages [pfx]
    | none => paginateFrom loadMore untilId fuel cont [videos]

/-- A playlist item bearing a video id. -/
def mkVideo (id : String) : JValue :=
  .obj [("playlistVideoRenderer", .obj [("videoId", .str id)])]

/-- A trailing continuation marker bearing a token. -/
def mkMarker (tok : String) : JValue :=
  .obj [("continuationItemRenderer", .obj [("continuationEndpoint",
    .obj [("continuationCommand", .obj [("token", .str tok)])])])]

/-- A continuation-response payload whose resolved item list is `items`. -/
def mkContPayload (items : List JValue) : JValue :=
  .obj [("onResponseReceivedActions", .arr [.obj
    [("appendContinuationItemsAction", .obj
      [("continuationItems", .arr items)])]])]

/-- An initial-page payload (no-submenu indexing) whose resolved item list
is `items`. -/
def mkInitialPayload (items : List JValue) : JValue :=
  let pvlr : JValue := .obj [("playlistVideoListRenderer",
    .obj [("contents", .arr items)])]
  let isr : JValue := .obj [("itemSectionRenderer",
    .obj [("contents", .arr [pvlr])])]
  let slr : JValue := .obj [("sectionListRenderer",
    .obj [("contents", .arr [isr])])]
  let tab : JValue := .obj [("tabRenderer",
    .obj [("content", slr)])]
  .obj [("contents",
    .obj [("twoColumnBrowseResultsRenderer",
      .obj [("tabs", .arr [tab])])])]

/-! ### Lemmas about de-duplication and the marker stage -/

theorem mem_dedupKeep (x : String) :
    ∀ (l seen : List String), x ∈ dedupKeep seen l ↔ (x ∈ l ∧ x ∉ seen) := by
  intro l
  induction l with
  | nil => intro seen; simp [dedupKeep]
  | cons a as ih =>
    intro seen
    by_cases ha : a ∈ seen
    · simp only [dedupKeep, if_pos ha]
      rw [ih seen]
      constructor
      · rintro ⟨h1, h2⟩
        exact ⟨List.mem_cons_of_mem a h1, h2⟩
      · rintro ⟨h1, h2⟩
        rcases List.mem_cons.1 h1 with rfl | h1
        · exact absurd ha h2
        · exact ⟨h1, h2⟩
    · simp only [dedupKeep, if_neg ha]
      constructor
      · intro h
        rcases List.mem_cons.1 h with rfl | h
        · exact ⟨List.mem_cons_self _ _, ha⟩
        · rw [ih (a :: seen)] at h
          obtain ⟨h1, h2⟩ := h
          exact ⟨List.mem_cons_of_mem a h1,
            fun hs => h2 (List.mem_cons_of_mem a hs)⟩
      · rintro ⟨h1, h2⟩
        rcases List.mem_cons.1 h1 with rfl | h1
        · exact List.mem_cons_self _ _
        · by_cases hxa : x = a
          · subst hxa
            exact List.mem_cons_self _ _
          · apply List.mem_cons_of_mem
            rw [ih (a :: seen)]
            refine ⟨h1, fun hs => ?_⟩
            rcases List.mem_cons.1 hs with h | h
            · exact hxa h
            · exact h2 h

theorem dedupKeep_nodup : ∀ (l seen : List String), (dedupKeep seen l).Nodup := by
  intro l
  induction l with
  | nil => intro seen; simp [dedupKeep]
  | cons a as ih =>
    intro seen
    by_cases ha : a ∈ seen
    · simp only [dedupKeep, if_pos ha]
      exact ih seen
    · simp only [dedupKeep, if_neg ha]
      refine List.nodup_cons.2 ⟨?_, ih (a :: seen)⟩
      intro hmem
      rw [mem_dedupKeep] at hmem
      exact hmem.2 (List.mem_cons_self a seen)

theorem dedupKeep_sublist :
    ∀ (l seen : List String), List.Sublist (dedupKeep seen l) l := by
  intro l
  induction l with
  | nil => intro seen; simp [dedupKeep]
  | cons a as ih =>
    intro seen
    by_cases ha : a ∈ seen
    · simp only [dedupKeep, if_pos ha]
      exact (ih seen).trans (List.sublist_cons_self a as)
    · simp only [dedupKeep, if_neg ha]
      exact List.Sublist.cons₂ a (ih (a :: seen))

theorem uniqueify_nodup (l : List String) : (uniqueify l).Nodup :=
  dedupKeep_nodup l []

theorem extract_mkCont (l : List JValue) :
    extract_videos (mkContPayload l) = markerStage (.arr l) := rfl

theorem markerStage_with_marker (items : List JValue) (m : JValue)
    (ids : List String) (tokv : JValue)
    (hm : markerToken m = .ok tokv) (hids : videoIdsOf items = .ok ids) :
    markerStage (.arr (items ++ [m])) = .ok (uniqueify ids, some tokv) := by
  have h1 : getLastItem (.arr (items ++ [m])) = .ok m := by
    simp only [getLastItem]
    rw [List.getLast?_concat]
  have h2 : sliceDropLast (.arr (items ++ [m])) = .arr items := by
    simp only [sliceDropLast]
    rw [List.dropLast_concat]
  simp only [markerStage, h1, hm, h2, pyIter, hids]

theorem getLast_cons_some (a : JValue) (as : List JValue) :
    ∃ x, (a :: as).getLast? = some x := by
  induction as generalizing a with
  | nil => exact ⟨a, rfl⟩
  | cons b bs ih =>
    obtain ⟨x, hx⟩ := ih b
    exact ⟨x, by rw [List.getLast?_cons_cons, hx]⟩

theorem markerStage_no_marker (l : List JValue) (ids : List String)
    (hlast : ∀ x, l.getLast? = some x →
      markerToken x = .error .keyError ∨ markerToken x = .error .indexError)
    (hids : videoIdsOf l = .ok ids) :
    markerStage (.arr l) = .ok (uniqueify ids, none) := by
  cases l with
  | nil =>
    have hid : ids = [] := by
      have h0 : (Except.ok [] : Except PyErr (List String)) = .ok ids := hids
      injection h0 with h0
      exact h0.symm
    subst hid
    rfl
  | cons a as =>
    obtain ⟨x, hx⟩ := getLast_cons_some a as
    have h1 : getLastItem (.arr (a :: as)) = .ok x := by
      simp only [getLastItem]
      rw [hx]
    rcases hlast x hx with hm | hm
    · simp only [markerStage, h1, hm, pyIter, hids]
    · simp only [markerStage, h1, hm, pyIter, hids]

/-- C9: on a continuation payload whose resolved item list ends with a
continuation marker, `_extract_videos` returns the token of the marker and
excludes the marker from the (de-duplicated) item list; when the trailing
element fails the token lookup with `KeyError` or `IndexError` (or the list
is empty) it returns continuation `none` and keeps all items. -/
theorem c9_marker_extraction :
    (∀ (items : List JValue) (m : JValue) (ids : List String) (tokv : JValue),
      markerToken m = .ok tokv → videoIdsOf items = .ok ids →
      extract_videos (mkContPayload (items ++ [m]))
        = .ok (uniqueify ids, some tokv))
    ∧ (∀ (l : List JValue) (ids : List String),
      (∀ x, l.getLast? = some x →
        markerToken x = .error .keyError ∨ markerToken x = .error .indexError) →
      videoIdsOf l = .ok ids →
      extract_videos (mkContPayload l) = .ok (uniqueify ids, none)) := by
  constructor
  · intro items m ids tokv hm hids
    rw [extract_mkCont]
    exact markerStage_with_marker items m ids tokv hm hids
  · intro l ids hlast hids
    rw [extract_mkCont]
    exact markerStage_no_marker l ids hlast hids

/-- Concrete instance of C9: one item plus a trailing marker yields the
token and only the item. -/
theorem c9_marker_extraction_witness :
    extract_videos (mkContPayload ([mkVideo "a"] ++ [mkMarker "t"]))
      = .ok (uniqueify ["/watch?v=a"], some (.str "t")) :=
  c9_marker_extraction.1 [mkVideo "a"] (mkMarker "t") ["/watch?v=a"]
    (.str "t") rfl rfl

theorem getKey_nonObj (x : JValue) (k : String) (hx : ∀ f, x ≠ .obj f) :
    getKey x k = .error .typeError := by
  cases x with
  | obj f => exact absurd rfl (hx f)
  | null => rfl
  | bool b => rfl
  | num n => rfl
  | str s => rfl
  | arr l => rfl

/-- C10: the marker check of `_extract_videos` catches only `KeyError` and
`IndexError` (playlist.py line 228): on a payload whose resolved item list
ends with a value that is not a string-keyed mapping (a list, a string, a
number, a boolean or null), `_extract_videos` raises `TypeError`; by
contrast the shape-matching steps also catch `TypeError` and return an
empty page with no continuation. -/
theorem c10_marker_type_error :
    (∀ (items : List JValue) (x : JValue), (∀ f, x ≠ JValue.obj f) →
      extract_videos (mkContPayload (items ++ [x])) = .error .typeError)
    ∧ extract_videos (.obj [("contents", .num 0)]) = .ok ([], none) := by
  constructor
  · intro items x hx
    rw [extract_mkCont]
    have h1 : getLastItem (.arr (items ++ [x])) = .ok x := by
      simp only [getLastItem]
      rw [List.getLast?_concat]
    have h2 : markerToken x = .error .typeError := by
      simp only [markerToken, getSteps, getKey_nonObj x "continuationItemRenderer" hx]
    simp only [markerStage, h1, h2]
  · rfl

/-- Concrete instance of C10: a trailing string item makes
`_extract_videos` raise `TypeError`. -/
theorem c10_marker_type_error_witness :
    extract_videos (mkContPayload ([] ++ [JValue.str "q"])) = .error .typeError :=
  c10_marker_type_error.1 [] (.str "q") (fun _ h => JValue.noConfusion h)

/-! ### C4: de-duplication within and across pages -/

theorem markerStage_nodup (v : JValue) (ids : List String)
    (cont : Option JValue) (h : markerStage v = .ok (ids, cont)) :
    ids.Nodup := by
  unfold markerStage at h
  cases hgl : getLastItem v with
  | ok lastv =>
    rw [hgl] at h
    dsimp only at h
    cases hmt : markerToken lastv with
    | ok tok =>
      rw [hmt] at h
      dsimp only at h
      cases hit : pyIter (sliceDropLast v) with
      | error e =>
        rw [hit] at h
        cases h
      | ok items =>
        rw [hit] at h
        dsimp only at h
        cases hvi : videoIdsOf items with
        | error e =>
          rw [hvi] at h
          cases h
        | ok ids0 =>
          rw [hvi] at h
          dsimp only at h
          injection h with hp
          cases hp
          exact uniqueify_nodup ids0
    | error e =>
      rw [hmt] at h
      cases e with
      | typeError => cases h
      | keyError =>
        dsimp only at h
        cases hit : pyIter v with
        | error e2 =>
          rw [hit] at h
          cases h
        | ok items =>
          rw [hit] at h
          dsimp only at h
          cases hvi : videoIdsOf items with
          | error e2 =>
            rw [hvi] at h
            cases h
          | ok ids0 =>
            rw [hvi] at h
            dsimp only at h
            injection h with hp
            cases hp
            exact uniqueify_nodup ids0
      | indexError =>
        dsimp only at h
        cases hit : pyIter v with
        | error e2 =>
          rw [hit] at h
          cases h
        | ok items =>
          rw [hit] at h
          dsimp only at h
          cases hvi : videoIdsOf items with
          | error e2 =>
            rw [hvi] at h
            cases h
          | ok ids0 =>
            rw [hvi] at h
            dsimp only at h
            injection h with hp
            cases hp
            exact uniqueify_nodup ids0
  | error e =>
    rw [hgl] at h
    cases e with
    | typeError => cases h
    | keyError =>
      dsimp only at h
      cases hit : pyIter v with
      | error e2 =>
        rw [hit] at h
        cases h
      | ok items =>
        rw [hit] at h
        dsimp only at h
        cases hvi : videoIdsOf items with
        | error e2 =>
          rw [hvi] at h
          cases h
        | ok ids0 =>
          rw [hvi] at h
          dsimp only at h
          injection h with hp
          cases hp
          exact uniqueify_nodup ids0
    | indexError =>
      dsimp only at h
      cases hit : pyIter v with
      | error e2 =>
        rw [hit] at h
        cases h
      | ok items =>
        rw [hit] at h
        dsimp only at h
        cases hvi : videoIdsOf items with
        | error e2 =>
          rw [hvi] at h
          cases h
        | ok ids0 =>
          rw [hvi] at h
          dsimp only at h
          injection h with hp
          cases hp
          exact uniqueify_nodup ids0

/-- C4 counterexample: a first page whose item list resolves to the single
id `a` with a continuation token, followed by a continuation page that
again contains `a`.  The enumeration session yields the identifier
`/watch?v=a` twice — the engine keeps no cross-page seen set, refuting the
claim that no identifier is ever yielded twice in a session. -/
theorem c4_duplicate_across_pages_cex :
    paginate (mkInitialPayload [mkVideo "a", mkMarker "t"])
      (fun _ => mkContPayload [mkVideo "a"]) none 2
      = .pages [["/watch?v=a"], ["/watch?v=a"]] := rfl

/-- C4 amended: every page returned by `_extract_videos` is de-duplicated
(its id list has no duplicates), and `uniqueify` keeps exactly the distinct
elements in first-seen order (the result is a sublist of the input with the
same members); but no de-duplication happens across pages — a previously
yielded identifier is yielded again when it reappears on a later page (see
the counterexample). -/
theorem c4_dedup_within_page :
    (∀ (data : JValue) (ids : List String) (cont : Option JValue),
      extract_videos data = .ok (ids, cont) → ids.Nodup)
    ∧ (∀ l : List String, List.Sublist (uniqueify l) l
        ∧ ∀ x, x ∈ uniqueify l ↔ x ∈ l) := by
  constructor
  · intro data ids cont h
    have h' : (match resolveVideos data with
        | none => (.ok ([], none) : Except PyErr (List String × Option JValue))
        | some videos => markerStage videos) = .ok (ids, cont) := h
    cases hrv : resolveVideos data with
    | none =>
      rw [hrv] at h'
      dsimp only at h'
      injection h' with hp
      cases hp
      exact List.nodup_nil
    | some videos =>
      rw [hrv] at h'
      exact markerStage_nodup videos ids cont h'
  · intro l
    refine ⟨dedupKeep_sublist l [], fun x => ?_⟩
    rw [uniqueify, mem_dedupKeep]
    simp

/-- Concrete instance of the amended C4: a page with a repeated id is
returned de-duplicated. -/
theorem c4_dedup_within_page_witness : (["/watch?v=a"] : List String).Nodup :=
  c4_dedup_within_page.1 (mkContPayload [mkVideo "a", mkVideo "a"])
    ["/watch?v=a"] none rfl

/-! ### C7: early termination at a stop identifier -/

theorem paginateFrom_runs (loadMore : JValue → JValue) (uX : Option String) :
    ∀ (k fuel : Nat), k < fuel →
    ∀ (ws : Nat → List String) (cs : Nat → Option JValue) (ts : Nat → JValue)
      (acc : List (List String)) (pfx : List String),
      (∀ j, j ≤ k → cs j = some (ts j)) →
      (∀ j, j ≤ k → extract_videos (loadMore (ts j)) = .ok (ws j, cs (j + 1))) →
      (∀ j, j < k → stopCheck uX (ws j) = none) →
      stopCheck uX (ws k) = some pfx →
      paginateFrom loadMore uX fuel (cs 0) acc
        = .pages (acc ++ (List.range k).map ws ++ [pfx]) := by
  intro k
  induction k with
  | zero =>
    intro fuel hf ws cs ts acc pfx hcs hex _ hstop
    obtain ⟨f, rfl⟩ : ∃ f, fuel = f + 1 := ⟨fuel - 1, by omega⟩
    rw [hcs 0 (Nat.le_refl 0)]
    simp only [paginateFrom]
    rw [hex 0 (Nat.le_refl 0)]
    dsimp only
    rw [hstop]
    simp

  | succ k2 ih =>
    intro fuel hf ws cs ts acc pfx hcs hex hnone hstop
    obtain ⟨f, rfl⟩ : ∃ f, fuel = f + 1 := ⟨fuel - 1, by omega⟩
    rw [hcs 0 (Nat.zero_le _)]
    simp only [paginateFrom]
    rw [hex 0 (Nat.zero_le _)]
    dsimp only
    rw [hnone 0 (Nat.succ_pos k2)]
    dsimp only
    have hrec := ih f (by omega) (fun n => ws (n + 1)) (fun n => cs (n + 1))
      (fun n => ts (n + 1)) (acc ++ [ws 0]) pfx
      (fun j hj => hcs (j + 1) (by omega))
      (fun j hj => hex (j + 1) (by omega))
      (fun j hj => hnone (j + 1) (by omega))
      hstop
    rw [hrec]
    congr 1
    rw [List.range_succ_eq_map]
    simp [List.map_map, Function.comp, List.append_assoc]

/-- C7: with `stop_at = X` first occurring among the identifiers of page
`k` (counting the first page as page 0), `_paginate` yields pages
`0 .. k-1` in full, then only the prefix of page `k` strictly before `X`,
and ends the session — no later page is loaded or yielded, whatever
continuation page `k` carries. -/
theorem c7_stop_at (firstPage : JValue) (loadMore : JValue → JValue)
    (X : String) (k : Nat) (vs : Nat → List String) (ct : Nat → Option JValue)
    (tk : Nat → JValue) (pfx : List String) (fuel : Nat) (hfuel : k < fuel)
    (h0 : extract_videos firstPage = .ok (vs 0, ct 0))
    (hct : ∀ j, j < k → ct j = some (tk j))
    (hload : ∀ j, j < k →
      extract_videos (loadMore (tk j)) = .ok (vs (j + 1), ct (j + 1)))
    (hnone : ∀ j, j < k → stopCheck (some X) (vs j) = none)
    (hk : stopCheck (some X) (vs k) = some pfx) :
    paginate firstPage loadMore (some X) fuel
      = .pages ((List.range k).map vs ++ [pfx]) := by
  simp only [paginate]
  rw [h0]
  dsimp only
  cases k with
  | zero =>
    rw [hk]
    simp
  | succ k2 =>
    rw [hnone 0 (Nat.succ_pos _)]
    dsimp only
    have hrun := paginateFrom_runs loadMore (some X) k2 fuel (by omega)
      (fun n => vs (n + 1)) ct tk [vs 0] pfx
      (fun j hj => hct j (by omega))
      (fun j hj => hload j (by omega))
      (fun j hj => hnone (j + 1) (by omega))
      hk
    rw [hrun]
    congr 1
    rw [List.range_succ_eq_map]
    simp [List.map_map, Function.comp, List.append_assoc]

/-- Concrete instance of C7: a two-page enumeration where the stop id `x`
sits in the middle of page 1; page 0 is yielded in full and page 1 only up
to (excluding) `x`. -/
theorem c7_stop_at_witness :
    paginate (mkInitialPayload [mkVideo "a", mkMarker "t1"])
      (fun _ => mkContPayload [mkVideo "c", mkVideo "x", mkVideo "d"])
      (some "x") 2
      = .pages [["/watch?v=a"], ["/watch?v=c"]] := by
  have h := c7_stop_at (mkInitialPayload [mkVideo "a", mkMarker "t1"])
    (fun _ => mkContPayload [mkVideo "c", mkVideo "x", mkVideo "d"])
    "x" 1
    (fun j => if j = 0 then ["/watch?v=a"]
      else ["/watch?v=c", "/watch?v=x", "/watch?v=d"])
    (fun j => if j = 0 then some (.str "t1") else none)
    (fun _ => .str "t1")
    ["/watch?v=c"] 2 (by omega)
    rfl
    (fun j hj => by
      have hj0 : j = 0 := by omega
      subst hj0
      rfl)
    (fun j hj => by
      have hj0 : j = 0 := by omega
      subst hj0
      rfl)
    (fun j hj => by
      have hj0 : j = 0 := by omega
      subst hj0
      rfl)
    rfl
  simpa [List.range_succ] using h

end Pytube
